import Mathlib

/-!
Shallow embedding of `src/handlers.ts` of next-tinacms-s3 (the first document
of the file: the Next.js media handler wiring TinaCMS media requests to an S3
bucket behind a CDN).  HTTP and S3 plumbing are made explicit: each operation
returns the HTTP response it writes together with the list of storage-backend
calls it issues, and the outcome of the (single) backend call is an explicit
parameter of the operation.
-/

namespace NextTinacmsS3

/-- The `S3Config` interface of `handlers.ts`.  The `authorized` callback is a
function of the request/response pair resolving to a Boolean; in this embedding
its resolved value is passed explicitly to `mediaHandler`. -/
structure S3Config where
  endpoint : String
  cdn_base_url : String
  bucket : String
  access_key : String
  access_secret : String
  region : String
deriving Repr, DecidableEq

/-- An arbitrary JavaScript failure value, as far as `findErrorMessage` can
observe it: either a bare string, or an object carrying an optional
string-valued `message` property and an optional `error` property.  (Other
non-nullish value shapes behave like `obj none none` under the property
accesses `findErrorMessage` performs.) -/
inductive JSErr where
  | str (s : String)
  | obj (message : Option String) (error : Option JSErr)

/-- The `e.error && e.error.message` branch of `findErrorMessage`: a truthy
`error` property whose own `message` property is a truthy (non-empty) string
yields that message; every other shape falls through to the fixed phrase.
A string-valued `error` has no `message` property, and an absent or
empty-message `error` object is skipped by JS truthiness. -/
def errorFieldMessage : Option JSErr → String
  | some (.obj (some m) _) => if m ≠ "" then m else "an error occurred"
  | _ => "an error occurred"

/-- `findErrorMessage` (handlers.ts, lines 169-174).  `if (e.message)` is a JS
truthiness test, so a present-but-empty `message` string is skipped exactly
like an absent one. -/
def findErrorMessage : JSErr → String
  | .str s => s
  | .obj (some m) error => if m ≠ "" then m else errorFieldMessage error
  | .obj none error => errorFieldMessage error

/-- Head-cons into the first chunk of a split result (the non-matching step of
`String.prototype.split`). -/
def consHead (c : Char) : List (List Char) → List (List Char)
  | [] => [[c]]
  | h :: t => (c :: h) :: t

/-- JavaScript `String.prototype.split` with a non-empty string separator:
scan left to right; at a position where the separator is a prefix, close the
current chunk and skip over the separator; otherwise move one character into
the current chunk.  Matches are found greedily left to right, without
overlap. -/
def jsSplit (sep : List Char) (s : List Char) : List (List Char) :=
  if h : sep ≠ [] ∧ sep.isPrefixOf s then
    [] :: jsSplit sep (s.drop sep.length)
  else
    match s with
    | [] => [[]]
    | c :: rest => consHead c (jsSplit sep rest)
termination_by s.length
decreasing_by
  · have hpre : sep <+: s := List.isPrefixOf_iff_prefix.mp h.2
    have h1 : 0 < sep.length := List.length_pos.mpr h.1
    have h2 : sep.length ≤ s.length := hpre.length_le
    have h3 : 0 < s.length := lt_of_lt_of_le h1 h2
    simp only [List.length_drop]
    omega
  · simp

/-- The number of (left-to-right, non-overlapping) occurrences of the
non-empty word `sep` in `s`: the same greedy scan as `jsSplit`, counting the
matches instead of cutting at them. -/
def countOcc (sep : List Char) (s : List Char) : Nat :=
  if h : sep ≠ [] ∧ sep.isPrefixOf s then
    countOcc sep (s.drop sep.length) + 1
  else
    match s with
    | [] => 0
    | _ :: rest => countOcc sep rest
termination_by s.length
decreasing_by
  · have hpre : sep <+: s := List.isPrefixOf_iff_prefix.mp h.2
    have h1 : 0 < sep.length := List.length_pos.mpr h.1
    have h2 : sep.length ≤ s.length := hpre.length_le
    have h3 : 0 < s.length := lt_of_lt_of_le h1 h2
    simp only [List.length_drop]
    omega
  · simp

/-- Interleave the separator back between chunks (the inverse of splitting). -/
def joinSep (sep : List Char) : List (List Char) → List Char
  | [] => []
  | [x] => x
  | x :: y :: t => x ++ sep ++ joinSep sep (y :: t)

/-- `transformS3Image` (handlers.ts, lines 216-227): split the URL on the fixed
marker `"/image/upload/"`; when the split yields exactly two parts (the marker
was found exactly once by the greedy scan), splice the transformation token,
followed by a `/`, back in right after the marker; otherwise return the URL
unchanged. -/
def transformS3Image (url : String) (transformations : String) : String :=
  match jsSplit ("/image/upload/").data url.data with
  | [p0, p1] => String.mk p0 ++ "/image/upload/" ++ transformations ++ "/" ++ String.mk p1
  | _ => url

/-- Index of the first character satisfying `p`, scanning from the head. -/
def revIdx (p : Char → Bool) : List Char → Option Nat
  | [] => none
  | c :: cs => if p c then some 0 else (revIdx p cs).map (· + 1)

/-- JavaScript `String.prototype.lastIndexOf` for a single character: the
largest index holding `c`, or `-1` when `c` does not occur. -/
def jsLastIndexOf (s : String) (c : Char) : Int :=
  match revIdx (· == c) s.data.reverse with
  | none => -1
  | some i => (s.data.length : Int) - 1 - i

/-- JavaScript `s.substring(0, e)`: the first `e` characters, where a negative
`e` is clamped to `0` and an `e` beyond the length is clamped to the length. -/
def jsSubstringTo (s : String) (e : Int) : String :=
  String.mk (s.data.take e.toNat)

/-- Modelled from `new URL(s).pathname` (WHATWG URL, `node:url`) for plain
absolute `https://` URLs whose host part contains no `/` and whose path needs
no normalisation or percent-encoding: everything from the first `/` after the
scheme (8 characters, the length of `"https://"`). -/
def urlPathname (s : String) : String :=
  String.mk ((s.data.drop 8).dropWhile (fun c => c != '/'))

/-- Modelled from `new URL(s).href` for the same simple URLs: serialising a
URL that needs no normalisation returns it unchanged. -/
def urlHref (s : String) : String := s

/-- The `Media` item shape handed back to TinaCMS (`@tinacms/toolkit`), with
the fields the projection fills in. -/
structure Media where
  id : String
  filename : String
  directory : String
  src : String
  previewSrc : String
  type : String
deriving Repr, DecidableEq

/-- One entry of a listing response's `Contents`; the projection reads
`file.Key`. -/
structure S3Object where
  Key : String
deriving Repr, DecidableEq

/-- `S3ToTina`, the projection returned by `getS3ToTinaFunc(config)`
(handlers.ts, lines 194-214): build the public URL from the CDN base and the
object key, take `directory` as `url.pathname.substring(0,
url.pathname.lastIndexOf('/'))`, keep the whole key as `filename`, and derive
`previewSrc` through `transformS3Image`. -/
def S3ToTina (config : S3Config) (file : S3Object) : Media :=
  let bucketUrl : String := "https://" ++ config.cdn_base_url ++ "/"
  let filename := file.Key
  let url := bucketUrl ++ filename
  { id := file.Key
    filename := filename
    directory := jsSubstringTo (urlPathname url) (jsLastIndexOf (urlPathname url) '/')
    src := urlHref url
    previewSrc := transformS3Image (urlHref url) "w_125,h_125,c_fill,q_auto"
    type := "file" }

/-- Outcome of the single storage-backend call an operation performs: either
the backend's response value, or the thrown/rejected failure value. -/
inductive Outcome (α : Type) where
  | ok (value : α)
  | fail (e : JSErr)

/-- `ListObjectsCommand` input, with the fields `listMedia` fills in. -/
structure ListObjectsCommand where
  Bucket : String
  Prefix : String
  MaxKeys : Nat
  Marker : Option String
deriving Repr, DecidableEq

/-- The listing response as `listMedia` reads it: the optional `Contents`
array and the cursor field the code forwards as `offset`. -/
structure ListResponse where
  Contents : Option (List S3Object)
  next_cursor : Option String
deriving Repr, DecidableEq

/-- Parameters of the put (`Upload`) issued by `uploadMedia`; the streamed
`Body` is not modelled. -/
structure PutParams where
  Bucket : String
  ACL : String
  Key : String
deriving Repr, DecidableEq

/-- `DeleteObjectCommand` input.  `deleteAsset` passes `Key: public_id`, which
is `undefined` (here `none`) when the `media` query parameter has fewer than
two segments. -/
structure DeleteObjectCommand where
  Bucket : String
  Key : Option String
deriving Repr, DecidableEq

/-- The backend-defined upload result payload, which `uploadMedia` passes
through verbatim; opaque at this layer. -/
structure UploadResult where
  raw : String
deriving Repr, DecidableEq

/-- The bodies the handler writes, one constructor per `res.json` / `res.send`
/ `res.end` call site.  `deleteOk` is the body `{undefined, public_id}`, whose
`undefined`-valued property disappears under JSON serialisation, leaving only
`public_id` (itself dropped when `undefined`). -/
inductive ResBody where
  | message (message : String)
  | listOk (items : List Media) (offset : Option String)
  | listErr (e : String)
  | uploadOk (result : UploadResult)
  | send (code : Nat)
  | endBody (code : Nat)
  | deleteOk (public_id : Option String)
deriving Repr, DecidableEq

/-- The observable HTTP response: the status (200 unless set otherwise) and
the body written, `none` when no body is emitted. -/
structure HttpResponse where
  status : Nat := 200
  body : Option ResBody := none
deriving Repr, DecidableEq

/-- A call issued to the storage backend. -/
inductive BackendCall where
  | list (command : ListObjectsCommand)
  | put (params : PutParams)
  | delete (command : DeleteObjectCommand)
deriving Repr, DecidableEq

/-- The root-directory normalisation of `listMedia` (line 135-136):
`!directory || directory === '/' || directory === '""'`, where `!directory`
is JS truthiness, so `undefined` (`none`) and the empty string are falsy. -/
def useRootDirectory (directory : Option String) : Bool :=
  match directory with
  | none => true
  | some d => d == "" || d == "/" || d == "\"\""

/-- The `ListObjectsCommand` constructed by `listMedia` (lines 138-143).
`limit` defaults to 500 when the query carries none; in the non-root branch
`directory` is necessarily `some`, so the `getD` default is never read. -/
def listCommand (config : S3Config) (directory : Option String)
    (limit : Option Nat) (offset : Option String) : ListObjectsCommand where
  Bucket := config.bucket
  Prefix := if useRootDirectory directory then "" else directory.getD ""
  MaxKeys := limit.getD 500
  Marker := offset

/-- `listMedia` (lines 123-161): issue the listing call; on success map the
`Contents` entries (if any) through the projection and answer 200 with
`{items: [...folders, ...files], offset: response.next_cursor}` where
`folders` is the hard-coded empty list; on failure answer 500 with
`{e: findErrorMessage e}`. -/
def listMedia (config : S3Config) (directory : Option String)
    (limit : Option Nat) (offset : Option String)
    (outcome : Outcome ListResponse) : HttpResponse × List BackendCall :=
  let command := listCommand config directory limit offset
  match outcome with
  | .ok response =>
    let files := match response.Contents with
      | some contents => contents.map (S3ToTina config)
      | none => []
    let folders : List Media := []
    ({ status := 200, body := some (.listOk (folders ++ files) response.next_cursor) },
      [.list command])
  | .fail e =>
    ({ status := 500, body := some (.listErr (findErrorMessage e)) }, [.list command])

/-- JavaScript `directory.replace(/^\//, '')`: strip at most one leading
slash. -/
def stripLeadingSlash (s : String) : String :=
  match s.data with
  | '/' :: rest => String.mk rest
  | _ => s

/-- `uploadMedia` (lines 74-121): put the staged file at key
`directory.replace(/^\//, '') + req.file.originalname` with ACL
`public-read`; on success answer with the backend's result verbatim, on
failure `res.send(500)` (the status itself is left untouched). -/
def uploadMedia (config : S3Config) (directory : String) (originalname : String)
    (outcome : Outcome UploadResult) : HttpResponse × List BackendCall :=
  let params : PutParams :=
    { Bucket := config.bucket
      ACL := "public-read"
      Key := stripLeadingSlash directory ++ originalname }
  match outcome with
  | .ok upload_result =>
    ({ status := 200, body := some (.uploadOk upload_result) }, [.put params])
  | .fail _ =>
    ({ status := 200, body := some (.send 500) }, [.put params])

/-- `deleteAsset` (lines 176-193): `const [, public_id] = media` keeps the
second segment of the `media` query value and discards the first; delete that
key; on success answer `{undefined, public_id}`, on failure set status 500 and
write no body. -/
def deleteAsset (config : S3Config) (media : List String)
    (outcome : Outcome Unit) : HttpResponse × List BackendCall :=
  let public_id := media[1]?
  let command : DeleteObjectCommand := { Bucket := config.bucket, Key := public_id }
  match outcome with
  | .ok _ => ({ status := 200, body := some (.deleteOk public_id) }, [.delete command])
  | .fail _ => ({ status := 500, body := none }, [.delete command])

/-- The HTTP method of the inbound request. -/
inductive Method where
  | GET
  | POST
  | DELETE
  | other
deriving Repr, DecidableEq

/-- The pieces of the inbound request the handler reads: the method, the GET
query (`directory`, `limit`, `offset`), the DELETE query (`media`), and the
POST multipart fields (`directory` form field and the file's original name). -/
structure Request where
  method : Method
  directory : Option String := none
  limit : Option Nat := none
  offset : Option String := none
  media : List String := []
  body_directory : String := ""
  file_originalname : String := ""

/-- The outcome each backend primitive would resolve to if called. -/
structure BackendOutcomes where
  list : Outcome ListResponse
  put : Outcome UploadResult
  delete : Outcome Unit

/-- The handler returned by `createMediaHandler` (lines 54-71): first consult
the resolved authorization value; when denied, answer 401 with the fixed
message and perform no storage operation; otherwise dispatch on the method
(GET to list, POST to upload, DELETE to delete, anything else `res.end(404)`,
which leaves the 200 status in place). -/
def mediaHandler (config : S3Config) (req : Request) (isAuthorized : Bool)
    (backend : BackendOutcomes) : HttpResponse × List BackendCall :=
  if !isAuthorized then
    ({ status := 401, body := some (.message "sorry this user is not authorized") }, [])
  else
    match req.method with
    | .GET => listMedia config req.directory req.limit req.offset backend.list
    | .POST => uploadMedia config req.body_directory req.file_originalname backend.put
    | .DELETE => deleteAsset config req.media backend.delete
    | .other => ({ status := 200, body := some (.endBody 404) }, [])

/-! Definitions taken from the specification's words, for comparison with the
code-derived ones. -/

/-- The spec's words for the Item Projection: the final path segment of a
path, i.e. the part after the last path separator. -/
def specFinalSegment (p : String) : String :=
  String.mk (p.data.reverse.takeWhile (fun c => c != '/')).reverse

/-- The spec's words: everything before the last path separator of a path
(empty when the path carries no separator at all). -/
def specBeforeLastSep (p : String) : String :=
  String.mk ((p.data.reverse.dropWhile (fun c => c != '/')).drop 1).reverse

/-- The spec's side condition on error values: the `error` property is an
object carrying a truthy (non-empty) `message` string. -/
def hasTruthyErrorMessage : Option JSErr → Prop
  | some (.obj (some m) _) => m ≠ ""
  | _ => False

/-- A concrete configuration used to instantiate theorems on a witness. -/
def cfg0 : S3Config :=
  { endpoint := "https://s3.example.com"
    cdn_base_url := "cdn.example.com"
    bucket := "bkt"
    access_key := "AK"
    access_secret := "SK"
    region := "eu-central-1" }

/-! Theorems for the claims. -/

/-- C1: `listMedia` issues exactly one listing call; its prefix is empty for
each of the four root sentinels (`undefined`, the empty string, `"/"`, and
the literal two-character token `'""'`), and equals the directory string
unchanged for every other non-empty directory. -/
theorem listMedia_prefix_normalisation (config : S3Config) (directory : Option String)
    (limit : Option Nat) (offset : Option String)
    (outcome : Outcome ListResponse) :
    (listMedia config directory limit offset outcome).2 =
      [.list (listCommand config directory limit offset)]
    ∧ ((directory = none ∨ directory = some "" ∨ directory = some "/" ∨
          directory = some "\"\"") →
        (listCommand config directory limit offset).Prefix = "")
    ∧ (∀ d : String, directory = some d → d ≠ "" → d ≠ "/" → d ≠ "\"\"" →
        (listCommand config directory limit offset).Prefix = d) := by
  refine ⟨by cases outcome <;> rfl, ?_, ?_⟩
  · rintro (rfl | rfl | rfl | rfl) <;> rfl
  · rintro d rfl h1 h2 h3
    simp [listCommand, useRootDirectory, h1, h2, h3]

/-- Witness for C1 at a concrete non-sentinel directory. -/
theorem listMedia_prefix_normalisation_witness :
    (listCommand cfg0 (some "assets") none none).Prefix = "assets" :=
  (listMedia_prefix_normalisation cfg0 (some "assets") none none
    (.ok ⟨none, none⟩)).2.2 "assets" rfl (by decide) (by decide) (by decide)

/-- C4 counterexample: the failure value `{message: ""}` does carry a
top-level `message` field, yet `findErrorMessage` answers the fixed phrase
instead of that field's (empty) value, because `if (e.message)` is a JS
truthiness test. -/
theorem findErrorMessage_empty_message_counterexample :
    findErrorMessage (.obj (some "") none) = "an error occurred" ∧
    findErrorMessage (.obj (some "") none) ≠ "" := by
  constructor <;> decide

/-- C4 amended: precedence with JS truthiness — a string maps to itself; else
a truthy (non-empty) top-level `message` string is returned; else a truthy
nested `error.message` string is returned; else the fixed phrase.  The four
examples of the claim hold as stated. -/
theorem findErrorMessage_precedence (e : JSErr) :
    (∀ s, e = .str s → findErrorMessage e = s)
    ∧ (∀ m error, e = .obj (some m) error → m ≠ "" → findErrorMessage e = m)
    ∧ (∀ m error m2 e2, e = .obj m error → m.getD "" = "" →
        error = some (.obj (some m2) e2) → m2 ≠ "" → findErrorMessage e = m2)
    ∧ (∀ m error, e = .obj m error → m.getD "" = "" →
        ¬ hasTruthyErrorMessage error →
        findErrorMessage e = "an error occurred")
    ∧ (findErrorMessage (.str "boom") = "boom"
       ∧ findErrorMessage (.obj (some "x") none) = "x"
       ∧ findErrorMessage (.obj none (some (.obj (some "y") none))) = "y"
       ∧ findErrorMessage (.obj none none) = "an error occurred") := by
  refine ⟨?_, ?_, ?_, ?_, by decide, by decide, by decide, by decide⟩
  · rintro s rfl; rfl
  · rintro m error rfl hm
    simp [findErrorMessage, hm]
  · rintro m error m2 e2 rfl hm rfl hm2
    rcases m with _ | m
    · simp [findErrorMessage, errorFieldMessage, hm2]
    · simp only [Option.getD_some] at hm
      subst hm
      simp [findErrorMessage, errorFieldMessage, hm2]
  · rintro m error rfl hm herr
    have hfield : errorFieldMessage error = "an error occurred" := by
      rcases error with _ | err
      · rfl
      · rcases err with s | ⟨m2, e2⟩
        · rfl
        · rcases m2 with _ | m2
          · rfl
          · rcases eq_or_ne m2 "" with h2 | h2
            · simp [errorFieldMessage, h2]
            · exact absurd h2 (by simpa [hasTruthyErrorMessage] using herr)
    rcases m with _ | m
    · simp [findErrorMessage, hfield]
    · simp only [Option.getD_some] at hm
      subst hm
      simp [findErrorMessage, hfield]

/-- Witness for C4 at the concrete failure value `"boom"`. -/
theorem findErrorMessage_precedence_witness :
    findErrorMessage (.str "boom") = "boom" :=
  (findErrorMessage_precedence (.str "boom")).1 "boom" rfl

/-- C5: a DELETE whose `media` query value has at least two segments discards
the first segment, issues a delete of the second segment against the bucket,
and on success answers 200 with `{public_id}` equal to that second segment. -/
theorem deleteAsset_uses_second_segment (config : S3Config)
    (first second : String) (rest : List String) :
    deleteAsset config (first :: second :: rest) (.ok ()) =
      ({ status := 200, body := some (.deleteOk (some second)) },
       [.delete { Bucket := config.bucket, Key := some second }]) := by
  simp [deleteAsset]

/-- C6: the put call issued by an upload uses key `directory` stripped of one
leading slash concatenated with the file's original name, and ACL
`public-read`; in particular directory `"/assets/"` with original name
`"cat.png"` yields key `"assets/cat.png"`. -/
theorem uploadMedia_put_key_acl (config : S3Config) (d f : String)
    (outcome : Outcome UploadResult) :
    (uploadMedia config d f outcome).2 =
      [.put { Bucket := config.bucket, ACL := "public-read",
              Key := stripLeadingSlash d ++ f }]
    ∧ (uploadMedia config "/assets/" "cat.png" outcome).2 =
      [.put { Bucket := config.bucket, ACL := "public-read",
              Key := "assets/cat.png" }] := by
  have hkey : stripLeadingSlash "/assets/" ++ "cat.png" = "assets/cat.png" := by
    decide
  constructor
  · cases outcome <;> rfl
  · cases outcome <;> simp [uploadMedia, hkey]

/-- C7: whatever the method and request, when the authorization callback has
resolved to `false` the handler answers 401 with
`{message: "sorry this user is not authorized"}` and issues no
storage-backend call at all. -/
theorem unauthorized_short_circuits (config : S3Config) (req : Request)
    (backend : BackendOutcomes) :
    mediaHandler config req false backend =
      ({ status := 401,
         body := some (.message "sorry this user is not authorized") }, []) := rfl

/-- C8: on a successful listing the handler answers 200, and the body is
`{items: [...folders, ...files], offset: response.next_cursor}` with
`folders` the hard-coded empty list and `files` the projection of the
returned object descriptors. -/
theorem listMedia_success_shape (config : S3Config) (directory : Option String)
    (limit : Option Nat) (offset : Option String) (response : ListResponse) :
    (listMedia config directory limit offset (.ok response)).1 =
      { status := 200,
        body := some (.listOk (([] : List Media) ++
          (response.Contents.getD []).map (S3ToTina config))
          response.next_cursor) } := by
  cases h : response.Contents <;> simp [listMedia, h]

/-- C9: when the backend delete call fails, the handler answers status 500
and emits no body. -/
theorem deleteAsset_failure_500_no_body (config : S3Config)
    (media : List String) (e : JSErr) :
    deleteAsset config media (.fail e) =
      ({ status := 500, body := none },
       [.delete { Bucket := config.bucket, Key := media[1]? }]) := rfl

/-- C10: a successful listing whose response carries no `Contents` list does
not fall into the error branch: the handler answers 200 with the empty item
list (and the response's cursor passed through). -/
theorem listMedia_no_contents (config : S3Config) (directory : Option String)
    (limit : Option Nat) (offset : Option String) (cursor : Option String) :
    (listMedia config directory limit offset (.ok ⟨none, cursor⟩)).1 =
      { status := 200, body := some (.listOk [] cursor) } := rfl

/-! Helper lemmas for the Item-Projection claims: decomposing a path at its
last separator, and evaluating the modelled URL helpers on it. -/

/-- Any list containing `'/'` splits at its last `'/'`. -/
theorem lastSlashSplit (d : List Char) (h : '/' ∈ d) :
    ∃ l r : List Char, d = l ++ '/' :: r ∧ '/' ∉ r := by
  induction d with
  | nil => simp at h
  | cons c cs ih =>
    by_cases hc : '/' ∈ cs
    · obtain ⟨l, r, rfl, hr⟩ := ih hc
      exact ⟨c :: l, r, rfl, hr⟩
    · have hc' : c = '/' := by
        rcases List.mem_cons.mp h with h1 | h2
        · exact h1.symm
        · exact absurd h2 hc
      exact ⟨[], cs, by simp [hc'], hc⟩

/-- `revIdx` skips a block of non-matching characters, offsetting the index. -/
theorem revIdx_append_of_none (p : Char → Bool) (xs ys : List Char)
    (h : ∀ x ∈ xs, p x = false) :
    revIdx p (xs ++ ys) = (revIdx p ys).map (· + xs.length) := by
  induction xs with
  | nil => cases hys : revIdx p ys <;> simp [hys]
  | cons c cs ih =>
    have hc : p c = false := h c (by simp)
    have ih' := ih (fun x hx => h x (by simp [hx]))
    cases hys : revIdx p ys with
    | none => simp [revIdx, hc, ih', hys]
    | some i =>
      simp [revIdx, hc, ih', hys]
      omega

/-- `dropWhile` passes over a block of characters that all satisfy `p`. -/
theorem dropWhile_append_of_all (p : Char → Bool) (xs ys : List Char)
    (h : ∀ x ∈ xs, p x = true) :
    List.dropWhile p (xs ++ ys) = List.dropWhile p ys := by
  induction xs with
  | nil => rfl
  | cons c cs ih =>
    have hc : p c = true := h c (by simp)
    have ih' := ih (fun x hx => h x (by simp [hx]))
    simp [List.dropWhile_cons, hc, ih']

/-- On a path containing a separator, `substring(0, lastIndexOf('/'))` is
exactly the spec's "everything before the last path separator". -/
theorem directory_eq_specBeforeLastSep (pn : String) (h : '/' ∈ pn.data) :
    jsSubstringTo pn (jsLastIndexOf pn '/') = specBeforeLastSep pn := by
  obtain ⟨l, r, hd, hr⟩ := lastSlashSplit pn.data h
  have hlen : pn.data.length = l.length + 1 + r.length := by
    rw [hd]; simp; omega
  have hrev : pn.data.reverse = r.reverse ++ '/' :: l.reverse := by
    rw [hd]; simp
  have hfalse : ∀ x ∈ r.reverse, (x == '/') = false := by
    intro x hx
    exact beq_eq_false_iff_ne.mpr fun hh => hr (hh ▸ List.mem_reverse.mp hx)
  have hidx : revIdx (· == '/') pn.data.reverse = some r.length := by
    rw [hrev, revIdx_append_of_none _ _ _ hfalse]
    simp [revIdx]
  have hlast : jsLastIndexOf pn '/' = (l.length : Int) := by
    rw [jsLastIndexOf, hidx, hlen]
    push_cast
    omega
  have htrue : ∀ x ∈ r.reverse, (x != '/') = true := by
    intro x hx
    exact bne_iff_ne.mpr fun hh => hr (hh ▸ List.mem_reverse.mp hx)
  rw [jsSubstringTo, hlast, specBeforeLastSep, hrev,
    dropWhile_append_of_all _ _ _ htrue]
  simp [hd, List.take_left]

/-- The modelled pathname of `https://host/key` when the host carries no
slash: the leading slash followed by the key. -/
theorem urlPathname_simple (host k : String) (hhost : '/' ∉ host.data) :
    urlPathname ("https://" ++ host ++ "/" ++ k) = String.mk ('/' :: k.data) := by
  have htrue : ∀ x ∈ host.data, (x != '/') = true := by
    intro x hx
    exact bne_iff_ne.mpr fun hh => hhost (hh ▸ hx)
  have hdata : ("https://" ++ host ++ "/" ++ k).data =
      ("https://").data ++ (host.data ++ '/' :: k.data) := by
    simp [String.data_append]
  rw [urlPathname, hdata]
  have h8 : ("https://").data.length = 8 := rfl
  rw [← h8, List.drop_left, dropWhile_append_of_all _ _ _ htrue]
  simp [List.dropWhile_cons]

/-- C2 counterexample: for the object key `"a/b.png"` the projected
`filename` is the whole key, not the final path segment (`"b.png"`) of the
URL's path component as the claim states. -/
theorem S3ToTina_filename_counterexample :
    (S3ToTina cfg0 ⟨"a/b.png"⟩).filename = "a/b.png"
    ∧ specFinalSegment (urlPathname ((S3ToTina cfg0 ⟨"a/b.png"⟩).src)) = "b.png"
    ∧ (S3ToTina cfg0 ⟨"a/b.png"⟩).filename ≠
        specFinalSegment (urlPathname ((S3ToTina cfg0 ⟨"a/b.png"⟩).src)) := by
  refine ⟨rfl, by decide, by decide⟩

/-- C2 amended: for any configuration whose CDN base URL contains no slash,
the projected `directory` is everything before the last path separator of
the URL's path component, while `filename` is the object key itself — which
coincides with the final path segment only for keys without a separator. -/
theorem S3ToTina_directory_filename (config : S3Config) (k : String)
    (hhost : '/' ∉ config.cdn_base_url.data) :
    (S3ToTina config ⟨k⟩).directory =
      specBeforeLastSep (urlPathname ((S3ToTina config ⟨k⟩).src))
    ∧ (S3ToTina config ⟨k⟩).filename = k := by
  have hpath : urlPathname ("https://" ++ config.cdn_base_url ++ "/" ++ k) =
      String.mk ('/' :: k.data) := urlPathname_simple _ _ hhost
  constructor
  · show jsSubstringTo (urlPathname ("https://" ++ config.cdn_base_url ++ "/" ++ k))
        (jsLastIndexOf (urlPathname ("https://" ++ config.cdn_base_url ++ "/" ++ k)) '/')
      = specBeforeLastSep (urlPathname ("https://" ++ config.cdn_base_url ++ "/" ++ k))
    exact directory_eq_specBeforeLastSep _ (by rw [hpath]; simp)
  · rfl

/-- Witness for C2's amended statement at a concrete configuration and key. -/
theorem S3ToTina_directory_filename_witness :
    (S3ToTina cfg0 ⟨"a/b.png"⟩).directory =
      specBeforeLastSep (urlPathname ((S3ToTina cfg0 ⟨"a/b.png"⟩).src))
    ∧ (S3ToTina cfg0 ⟨"a/b.png"⟩).filename = "a/b.png" :=
  S3ToTina_directory_filename cfg0 "a/b.png" (by decide)

/-! Helper lemmas for the URL-Transform claim: the split result's length
counts the marker's occurrences, and joining the chunks with the separator
restores the original string. -/

/-- `consHead` never produces the empty list of chunks. -/
theorem consHead_ne_nil (c : Char) (L : List (List Char)) : consHead c L ≠ [] := by
  cases L <;> simp [consHead]

/-- `consHead` keeps the number of chunks of a non-empty chunk list. -/
theorem length_consHead (c : Char) (L : List (List Char)) (h : L ≠ []) :
    (consHead c L).length = L.length := by
  cases L with
  | nil => exact absurd rfl h
  | cons x t => simp [consHead]

/-- `consHead` moves the character to the front of the joined string. -/
theorem joinSep_consHead (sep : List Char) (c : Char) (L : List (List Char))
    (h : L ≠ []) : joinSep sep (consHead c L) = c :: joinSep sep L := by
  cases L with
  | nil => exact absurd rfl h
  | cons x t => cases t <;> simp [consHead, joinSep]

/-- A split result is never the empty list of chunks. -/
theorem jsSplit_ne_nil (sep s : List Char) : jsSplit sep s ≠ [] := by
  rw [jsSplit]
  split
  · simp
  · split
    · simp
    · exact consHead_ne_nil _ _

/-- The split has one more chunk than the separator has (greedy,
non-overlapping) occurrences. -/
theorem length_jsSplit (sep s : List Char) :
    (jsSplit sep s).length = countOcc sep s + 1 := by
  induction s using jsSplit.induct sep with
  | case1 s h ih =>
    rw [jsSplit, countOcc, dif_pos h, dif_pos h]
    simp [ih]
  | case2 h1 h2 =>
    rw [jsSplit, countOcc, dif_neg h1, dif_neg h1]
    rfl
  | case3 c rest h1 h2 ih =>
    rw [jsSplit, countOcc, dif_neg h1, dif_neg h1]
    show (consHead c (jsSplit sep rest)).length = countOcc sep rest + 1
    rw [length_consHead _ _ (jsSplit_ne_nil sep rest), ih]

/-- Joining the chunks back with the separator restores the string. -/
theorem joinSep_jsSplit (sep s : List Char) :
    joinSep sep (jsSplit sep s) = s := by
  induction s using jsSplit.induct sep with
  | case1 s h ih =>
    have hs : sep ++ List.drop sep.length s = s :=
      List.prefix_iff_eq_append.mp (List.isPrefixOf_iff_prefix.mp h.2)
    rw [jsSplit, dif_pos h]
    obtain ⟨x, t, hxt⟩ : ∃ x t, jsSplit sep (List.drop sep.length s) = x :: t := by
      cases hJ : jsSplit sep (List.drop sep.length s) with
      | nil => exact absurd hJ (jsSplit_ne_nil _ _)
      | cons x t => exact ⟨x, t, rfl⟩
    rw [hxt] at ih ⊢
    show [] ++ sep ++ joinSep sep (x :: t) = s
    rw [List.nil_append, ih, hs]
  | case2 h1 h2 =>
    rw [jsSplit, dif_neg h1]
    rfl
  | case3 c rest h1 h2 ih =>
    rw [jsSplit, dif_neg h1]
    show joinSep sep (consHead c (jsSplit sep rest)) = c :: rest
    rw [joinSep_consHead _ _ _ (jsSplit_ne_nil sep rest), ih]

/-- The empty string holds no occurrence of a word. -/
theorem countOcc_nil (sep : List Char) : countOcc sep [] = 0 := by
  rw [countOcc]
  split
  · rename_i h
    exact absurd (List.prefix_nil.mp (List.isPrefixOf_iff_prefix.mp h.2)) h.1
  · rfl

/-- C3: when the marker `"/image/upload/"` occurs exactly once in the URL
(occurrences counted left to right without overlap, as the code's `split`
finds them), the transform returns the URL with the token — followed by a
`/` — spliced in right after the marker; when the marker is absent or occurs
more than once, the URL is returned unchanged. -/
theorem transformS3Image_splice (u t : String) :
    (countOcc ("/image/upload/").data u.data = 1 →
      ∃ p s : String, u = p ++ "/image/upload/" ++ s ∧
        transformS3Image u t = p ++ "/image/upload/" ++ t ++ "/" ++ s)
    ∧ (countOcc ("/image/upload/").data u.data ≠ 1 →
      transformS3Image u t = u) := by
  constructor
  · intro h1
    have hlen : (jsSplit ("/image/upload/").data u.data).length = 2 := by
      rw [length_jsSplit, h1]
    obtain ⟨p0, p1, hsplit⟩ := List.length_eq_two.mp hlen
    have hjoin := joinSep_jsSplit ("/image/upload/").data u.data
    rw [hsplit] at hjoin
    have hjoin' : p0 ++ ("/image/upload/").data ++ p1 = u.data := by
      simpa [joinSep] using hjoin
    refine ⟨String.mk p0, String.mk p1, ?_, ?_⟩
    · apply String.ext
      simpa [String.data_append] using hjoin'.symm
    · unfold transformS3Image
      rw [hsplit]
  · intro h1
    have hlen : (jsSplit ("/image/upload/").data u.data).length ≠ 2 := by
      rw [length_jsSplit]
      omega
    unfold transformS3Image
    generalize hJ : jsSplit ("/image/upload/").data u.data = L at hlen ⊢
    rcases L with _ | ⟨a, _ | ⟨b, _ | ⟨c, t'⟩⟩⟩
    · rfl
    · rfl
    · simp at hlen
    · rfl

/-- Witness for C3 at a URL without the marker. -/
theorem transformS3Image_splice_witness :
    transformS3Image "" "w_125,h_125,c_fill,q_auto" = "" :=
  (transformS3Image_splice "" "w_125,h_125,c_fill,q_auto").2 (by
    have h0 : ("" : String).data = [] := rfl
    rw [h0, countOcc_nil]
    omega)

end NextTinacmsS3
